import Mathlib

/-!
Verification of the lcapy expression core (`expr.py`, `texpr.py`).

The symbolic backend (SymPy) is modelled on the fragment the claims
exercise: univariate rational functions with integer coefficients (no
claim needs non-integer constants).  A polynomial is a little-endian
coefficient list (`Poly`), a backend node is an unreduced quotient of two
polynomials (`Frac`).  The backend's `simplify(x - y) == 0` test is exact
zero-testing of the formal difference numerator, and the structural
`arg == 0` test used by the `Expr` constructor is zero-testing of the
numerator, which agrees with SymPy's structural test on the operations
the claims traverse (a product or quotient is structurally zero exactly
when an operand's numerator is).
-/

namespace LcapySpec

/-- Little-endian coefficient list over ℤ, modelling a backend polynomial. -/
abbrev Poly : Type := List ℤ

/-- Pointwise addition, padding the shorter list with zeros. -/
def padd : Poly → Poly → Poly
  | [], q => q
  | p, [] => p
  | a :: p, b :: q => (a + b) :: padd p q

/-- Pointwise negation. -/
def pneg (p : Poly) : Poly := p.map (fun c => -c)

/-- Subtraction. -/
def psub (p q : Poly) : Poly := padd p (pneg q)

/-- Scalar multiple. -/
def pscale (c : ℤ) (p : Poly) : Poly := p.map (fun x => c * x)

/-- Cauchy-product multiplication. -/
def pmul : Poly → Poly → Poly
  | [], _ => []
  | a :: p, q => padd (pscale a q) ((0 : ℤ) :: pmul p q)

/-- Natural-number power. -/
def ppow (p : Poly) : Nat → Poly
  | 0 => [(1 : ℤ)]
  | n + 1 => pmul p (ppow p n)

/-- The zero test: all stored coefficients are zero.  This is the exact
test behind the backend's `simplify(difference) == 0`. -/
def isZeroP (p : Poly) : Bool := p.all (fun c => decide (c = 0))

/-- Strip trailing (highest-degree) zero coefficients. -/
def trim (p : Poly) : Poly := (p.reverse.dropWhile (fun c => decide (c = 0))).reverse

/-- Degree at most zero (a constant, possibly zero). -/
def isConstP (p : Poly) : Bool := (trim p).length ≤ 1

/-- Interpretation into Mathlib polynomials, used only to prove ring
identities about the list representation. -/
noncomputable def toPoly : Poly → Polynomial ℤ
  | [] => 0
  | c :: p => Polynomial.C c + Polynomial.X * toPoly p

/-- A backend node: an unreduced quotient `num / den` of polynomials.
SymPy keeps quotients unreduced (no automatic gcd cancellation), so the
formal pair mirrors the structural shape the wrapper code observes. -/
structure Frac where
  num : Poly
  den : Poly
deriving DecidableEq

/-- Constant node `q`. -/
def fconst (q : ℤ) : Frac := ⟨[q], [(1 : ℤ)]⟩

/-- The domain variable as a node. -/
def fvar : Frac := ⟨[0, (1 : ℤ)], [(1 : ℤ)]⟩

/-- Node addition (`Add` of two quotients over the common denominator). -/
def fadd (x y : Frac) : Frac :=
  ⟨padd (pmul x.num y.den) (pmul y.num x.den), pmul x.den y.den⟩

/-- Node subtraction. -/
def fsub (x y : Frac) : Frac :=
  ⟨psub (pmul x.num y.den) (pmul y.num x.den), pmul x.den y.den⟩

/-- Node negation. -/
def fneg (x : Frac) : Frac := ⟨pneg x.num, x.den⟩

/-- Node multiplication. -/
def fmul (x y : Frac) : Frac := ⟨pmul x.num y.num, pmul x.den y.den⟩

/-- Node division. -/
def fdiv (x y : Frac) : Frac := ⟨pmul x.num y.den, pmul x.den y.num⟩

/-- Structural zero test on a node (`arg == 0` in the wrapper). -/
def fzero (x : Frac) : Bool := isZeroP x.num

/-- Integer power. -/
def fzpow (x : Frac) (n : ℤ) : Frac :=
  if 0 ≤ n then ⟨ppow x.num n.toNat, ppow x.den n.toNat⟩
  else ⟨ppow x.den (-n).toNat, ppow x.num (-n).toNat⟩

/-- Constant value of a node, when its numerator and denominator both have
degree zero (the only case in which SymPy relational operators on the
fragment evaluate to a Boolean). -/
def constVal (x : Frac) : Option ℚ :=
  match trim x.den with
  | [d] =>
    match trim x.num with
    | [] => some 0
    | [a] => some ((a : ℚ) / (d : ℚ))
    | _ => none
  | _ => none

/-- Constant integer value of a node, if any. -/
def constIntVal (x : Frac) : Option ℤ :=
  match trim x.den with
  | [d] =>
    match trim x.num with
    | [] => some 0
    | [a] => if a % d = 0 then some (a / d) else none
    | _ => none
  | _ => none

/-- Node power `x ** y`.  SymPy's `Pow` is modelled only as far as the
wrapper inspects it: when the exponent is a constant integer the true
power is computed; otherwise the node is structurally nonzero exactly when
the base is nonzero (`0 ** y` auto-evaluates to `0` for the positive
symbols of the library, while a nonzero base gives an unevaluated,
structurally nonzero `Pow`), which is all the `Expr` constructor's
`arg == 0` test can observe. -/
def fpow (x y : Frac) : Frac :=
  match constIntVal y with
  | some n => fzpow x n
  | none => x

/-- The backend's semantic equality test used by `Expr.__eq__`:
`sympy.simplify(a - b) == 0`, i.e. exact zero-testing of the formal
difference. -/
def semEqZero (x y : Frac) : Bool := fzero (fsub x y)

/-- The concrete wrapper classes reachable from the claims.  The generic
quantity classes of `impedance.py`/`resistance.py` etc. are not modelled:
no claim reaches the one `__compat_add__` branch that mentions them. -/
inductive PyClass
  | ExprC            -- Expr
  | ConstantC        -- ConstantExpression
  | VoltageGenC      -- Voltage (superkind promotion target)
  | CurrentGenC      -- Current (superkind promotion target)
  | TimeC            -- TimeDomainExpression
  | TimeVoltageC     -- TimeDomainVoltage
  | TimeCurrentC     -- TimeDomainCurrent
  | TimeAdmittanceC  -- TimeDomainAdmittance
  | TimeImpedanceC   -- TimeDomainImpedance
  | TimeImpulseC     -- TimeDomainImpulseResponse
  | LaplaceC         -- LaplaceDomainExpression
  | LapVoltageC      -- LaplaceDomainVoltage
  | LapCurrentC      -- LaplaceDomainCurrent
  | LapAdmittanceC   -- LaplaceDomainAdmittance
  | LapImpedanceC    -- LaplaceDomainImpedance
  | LapTransferC     -- LaplaceDomainTransferFunction
  | FourierC         -- FourierDomainExpression
  | AngularFourierC  -- AngularFourierDomainExpression
deriving DecidableEq, Fintype

/-- Immediate superclass of each modelled class. -/
def parentClass : PyClass → Option PyClass
  | .ExprC => none
  | .ConstantC => some .ExprC
  | .VoltageGenC => some .ExprC
  | .CurrentGenC => some .ExprC
  | .TimeC => some .ExprC
  | .TimeVoltageC => some .TimeC
  | .TimeCurrentC => some .TimeC
  | .TimeAdmittanceC => some .TimeC
  | .TimeImpedanceC => some .TimeC
  | .TimeImpulseC => some .TimeC
  | .LaplaceC => some .ExprC
  | .LapVoltageC => some .LaplaceC
  | .LapCurrentC => some .LaplaceC
  | .LapAdmittanceC => some .LaplaceC
  | .LapImpedanceC => some .LaplaceC
  | .LapTransferC => some .LaplaceC
  | .FourierC => some .ExprC
  | .AngularFourierC => some .ExprC

/-- Superclass chain, the class itself included (hierarchy depth is 3). -/
def superclasses (c : PyClass) : List PyClass :=
  c :: (match parentClass c with
        | none => []
        | some p => p :: (match parentClass p with
                          | none => []
                          | some g => [g]))

/-- Python `isinstance`: `c` is `d` or a (transitive) subclass of `d`. -/
def isSubclass (c d : PyClass) : Bool := (superclasses c).contains d

/-- Quantity `superkind` attribute, where the class defines one. -/
def superkind : PyClass → Option String
  | .TimeVoltageC => some "Voltage"
  | .LapVoltageC => some "Voltage"
  | .VoltageGenC => some "Voltage"
  | .TimeCurrentC => some "Current"
  | .LapCurrentC => some "Current"
  | .CurrentGenC => some "Current"
  | _ => none

/-- Human-readable class name used in error messages. -/
def className : PyClass → String
  | .ExprC => "Expr"
  | .ConstantC => "ConstantExpression"
  | .VoltageGenC => "Voltage"
  | .CurrentGenC => "Current"
  | .TimeC => "TimeDomainExpression"
  | .TimeVoltageC => "TimeDomainVoltage"
  | .TimeCurrentC => "TimeDomainCurrent"
  | .TimeAdmittanceC => "TimeDomainAdmittance"
  | .TimeImpedanceC => "TimeDomainImpedance"
  | .TimeImpulseC => "TimeDomainImpulseResponse"
  | .LaplaceC => "LaplaceDomainExpression"
  | .LapVoltageC => "LaplaceDomainVoltage"
  | .LapCurrentC => "LaplaceDomainCurrent"
  | .LapAdmittanceC => "LaplaceDomainAdmittance"
  | .LapImpedanceC => "LaplaceDomainImpedance"
  | .LapTransferC => "LaplaceDomainTransferFunction"
  | .FourierC => "FourierDomainExpression"
  | .AngularFourierC => "AngularFourierDomainExpression"

/-- Domain variable name fixed by each class (`var` class attribute); the
base `Expr` and the constant/quantity classes leave it unset. -/
def classVar : PyClass → Option String
  | .ExprC => none
  | .ConstantC => none
  | .VoltageGenC => none
  | .CurrentGenC => none
  | .TimeC | .TimeVoltageC | .TimeCurrentC | .TimeAdmittanceC
  | .TimeImpedanceC | .TimeImpulseC => some "t"
  | .LaplaceC | .LapVoltageC | .LapCurrentC | .LapAdmittanceC
  | .LapImpedanceC | .LapTransferC => some "s"
  | .FourierC => some "f"
  | .AngularFourierC => some "omega"

/-- An lcapy assumptions mapping restricted to the keys the claims
exercise.  `none` means the key is absent from the dict; `some none`
means the key is present with value `None`; `some (some b)` means it is
present with a Boolean value. -/
structure Assump where
  causal : Option (Option Bool)
  dc : Option (Option Bool)
  ac : Option (Option Bool)
  real : Option (Option Bool)
deriving DecidableEq

/-- The empty assumptions dict. -/
def emptyAssum : Assump := ⟨none, none, none, none⟩

/-- The dict literal with a lone entry causal=True. -/
def causalTrueAssum : Assump := ⟨some (some true), none, none, none⟩

/-- The dict literal with a lone entry ac=True. -/
def acTrueAssum : Assump := ⟨none, none, some (some true), none⟩

/-- An lcapy expression: a wrapped backend node plus its class tag and
assumptions dict.  Because the Python object is mutated in place by lazy
inference, operations below return updated copies of their receivers
explicitly (state passing). -/
structure LExpr where
  cls : PyClass
  node : Frac
  assum : Assump
deriving DecidableEq

/-- Per-class constructor preamble: `TimeDomainExpression.__init__` sets
`assumptions['real'] = True` before delegating to `Expr.__init__`. -/
def initAssum (cls : PyClass) (A : Assump) : Assump :=
  if isSubclass cls .TimeC then { A with real := some (some true) } else A

/-- The direct path of `Expr.__init__` (`arg` is a backend node): the
literal-zero special case forces `causal = True` into the assumptions
dict before it is stored. -/
def mkExpr (cls : PyClass) (node : Frac) (A : Assump) : LExpr :=
  let A := initAssum cls A
  ⟨cls, node, if fzero node then { A with causal := some (some true) } else A⟩

/-- The copy path of `Expr.__init__` (`arg` is already an `Expr`): the
source's node is adopted, and the assumptions argument overrides the
source's assumptions only when non-empty.  A time-domain target class has
already inserted `real = True`, so for it the argument is never empty. -/
def copyExpr (cls : PyClass) (src : LExpr) (A : Assump) : LExpr :=
  let A := initAssum cls A
  ⟨cls, src.node, if A = emptyAssum then src.assum else A⟩

/-- Modelled from the spec: `acdc.is_dc` (module `acdc.py` is not under
`src/`).  Spec §3: time-domain inference "inspects whether the expression
is constant"; on the rational fragment an expression is dc exactly when
it does not involve the domain variable. -/
def acdcIsDc (node : Frac) : Bool := isConstP node.num && isConstP node.den

/-- Modelled from the spec: `acdc.is_ac`.  Spec §3 describes ac detection
as periodicity; no nonconstant rational function is periodic, so on the
modelled fragment the check never fires. -/
def acdcIsAc (_node : Frac) : Bool := false

/-- Modelled from the spec: `acdc.is_causal` checks the expression is
zero for `t < 0`; the zero function is the only rational function with
that property. -/
def acdcIsCausal (node : Frac) : Bool := fzero node

/-- The base `Expr.infer_assumptions`: unconditionally writes `None` into
the dc, ac and causal entries of the assumptions dict (clobbering any
values already there). -/
def baseInfer (A : Assump) : Assump :=
  { A with dc := some none, ac := some none, causal := some none }

/-- `TimeDomainExpression.infer_assumptions`: reset dc/ac/causal to False,
then set the first of dc, ac, causal whose structural check succeeds. -/
def timeInfer (node : Frac) (A : Assump) : Assump :=
  let A := { A with dc := some (some false), ac := some (some false),
                    causal := some (some false) }
  if acdcIsDc node then { A with dc := some (some true) }
  else if acdcIsAc node then { A with ac := some (some true) }
  else if acdcIsCausal node then { A with causal := some (some true) }
  else A

/-- Class-dispatched `infer_assumptions` on an assumptions record. -/
def inferAssum (cls : PyClass) (node : Frac) (A : Assump) : Assump :=
  if isSubclass cls .TimeC then timeInfer node A else baseInfer A

/-- `Expr.is_causal` on the assumptions record: infer lazily when the
`causal` key is absent, then compare the stored value with `True`.
Returns the Boolean result together with the updated (mutated) record. -/
def is_causalA (cls : PyClass) (node : Frac) (A : Assump) : Bool × Assump :=
  let A := if A.causal = none then inferAssum cls node A else A
  (A.causal == some (some true), A)

/-- `Expr.is_dc` on the assumptions record. -/
def is_dcA (cls : PyClass) (node : Frac) (A : Assump) : Bool × Assump :=
  let A := if A.dc = none then inferAssum cls node A else A
  (A.dc == some (some true), A)

/-- `Expr.is_ac` on the assumptions record. -/
def is_acA (cls : PyClass) (node : Frac) (A : Assump) : Bool × Assump :=
  let A := if A.ac = none then inferAssum cls node A else A
  (A.ac == some (some true), A)

/-- `Expr.is_causal` property: result plus the receiver as left behind by
the query (the lazy inference writes into the receiver's dict). -/
def is_causal (e : LExpr) : Bool × LExpr :=
  let r := is_causalA e.cls e.node e.assum
  (r.1, { e with assum := r.2 })

/-- `Expr.is_dc` property. -/
def is_dc (e : LExpr) : Bool × LExpr :=
  let r := is_dcA e.cls e.node e.assum
  (r.1, { e with assum := r.2 })

/-- `Expr.is_ac` property. -/
def is_ac (e : LExpr) : Bool × LExpr :=
  let r := is_acA e.cls e.node e.assum
  (r.1, { e with assum := r.2 })

/-- `Expr._incompatible`: the `ValueError` raised for operand types that
no compatibility rule accepts.  The operand reprs of the Python message
are omitted; class names and operator are kept. -/
def incompatibleMsg (c d : PyClass) (op : String) : String :=
  "Cannot combine " ++ className c ++ " with " ++ className d ++ " for " ++ op

/-- The Laplace-domain assumption merge of `__compat_mul__` (lines
533-543), with the property queries threaded in Python evaluation order:
`or`/`and` short-circuit, each `elif` re-queries, and each query may
lazily infer into (mutate) the queried record.  Returns the merged
assumptions together with both operands' final records. -/
def lapMulMergeA (scls : PyClass) (snode : Frac) (xcls : PyClass)
    (xnode : Frac) (SA XA : Assump) : Assump × Assump × Assump :=
  let s1 := is_causalA scls snode SA
  if s1.1 then (causalTrueAssum, s1.2, XA)
  else
    let x1 := is_causalA xcls xnode XA
    if x1.1 then (causalTrueAssum, s1.2, x1.2)
    else
      let s2 := is_dcA scls snode s1.2
      let x2 := if s2.1 then is_dcA xcls xnode x1.2 else (false, x1.2)
      if s2.1 && x2.1 then (s2.2, s2.2, x2.2)
      else
        let s3 := is_acA scls snode s2.2
        let x3 := if s3.1 then is_acA xcls xnode x2.2 else (false, x2.2)
        if s3.1 && x3.1 then (s3.2, s3.2, x3.2)
        else
          let s4 := is_acA scls snode s3.2
          let x4 := if s4.1 then is_dcA xcls xnode x3.2 else (false, x3.2)
          if s4.1 && x4.1 then (acTrueAssum, s4.2, x4.2)
          else
            let s5 := is_dcA scls snode s4.2
            let x5 := if s5.1 then is_acA xcls xnode x4.2 else (false, x4.2)
            if s5.1 && x5.1 then (acTrueAssum, s5.2, x5.2)
            else (emptyAssum, s5.2, x5.2)

/-- The Laplace-domain assumption merge of `__compat_add__` (lines
592-598): causal only when both operands are causal, dc/dc and ac/ac
carry the left operand's current assumptions. -/
def lapAddMergeA (scls : PyClass) (snode : Frac) (xcls : PyClass)
    (xnode : Frac) (SA XA : Assump) : Assump × Assump × Assump :=
  let s1 := is_causalA scls snode SA
  let x1 := if s1.1 then is_causalA xcls xnode XA else (false, XA)
  if s1.1 && x1.1 then (causalTrueAssum, s1.2, x1.2)
  else
    let s2 := is_dcA scls snode s1.2
    let x2 := if s2.1 then is_dcA xcls xnode x1.2 else (false, x1.2)
    if s2.1 && x2.1 then (s2.2, s2.2, x2.2)
    else
      let s3 := is_acA scls snode s2.2
      let x3 := if s3.1 then is_acA xcls xnode x2.2 else (false, x2.2)
      if s3.1 && x3.1 then (s3.2, s3.2, x3.2)
      else (emptyAssum, s3.2, x3.2)

/-- Result bundle of the compatibility resolvers: result class, the two
operands as left behind (possibly mutated and re-wrapped), and the merged
assumptions. -/
structure CompatRes where
  cls : PyClass
  self : LExpr
  x : LExpr
  assum : Assump

/-- `Expr.__compat_mul__` for two wrapped operands, transcribing the
`isinstance` ladder of lines 519-578.  Unwrapped Python operands
(numbers, bare SymPy nodes) are converted before this point and are not
modelled. -/
def compatMul (self x : LExpr) (op : String) : Except String CompatRes :=
  let cls := self.cls
  let xcls := x.cls
  let m :=
    if isSubclass cls .LaplaceC && isSubclass xcls .LaplaceC then
      lapMulMergeA cls self.node xcls x.node self.assum x.assum
    else (emptyAssum, self.assum, x.assum)
  let assumptions := m.1
  let self := { self with assum := m.2.1 }
  let x := { x with assum := m.2.2 }
  if cls = xcls then .ok ⟨cls, self, copyExpr cls x emptyAssum, assumptions⟩
  else if isSubclass cls .AngularFourierC && isSubclass xcls .TimeC then
    .ok ⟨xcls, self, x, assumptions⟩
  else if isSubclass cls .TimeC && isSubclass xcls .AngularFourierC then
    .ok ⟨cls, self, x, assumptions⟩
  else if xcls = .ExprC || xcls = .ConstantC then
    .ok ⟨cls, self, copyExpr cls x emptyAssum, assumptions⟩
  else if cls = .ExprC || cls = .ConstantC then
    .ok ⟨xcls, self, x, assumptions⟩
  else if isSubclass xcls cls then
    .ok ⟨xcls, self, copyExpr cls x emptyAssum, assumptions⟩
  else if isSubclass cls xcls then
    .ok ⟨cls, self, copyExpr cls x emptyAssum, assumptions⟩
  else if isSubclass cls .TimeC && isSubclass xcls .TimeC then
    .ok ⟨cls, self, copyExpr cls x emptyAssum, assumptions⟩
  else if isSubclass cls .FourierC && isSubclass xcls .FourierC then
    .ok ⟨cls, self, copyExpr cls x emptyAssum, assumptions⟩
  else if isSubclass cls .LaplaceC && isSubclass xcls .LaplaceC then
    .ok ⟨cls, self, copyExpr cls x emptyAssum, assumptions⟩
  else if isSubclass cls .AngularFourierC && isSubclass xcls .AngularFourierC then
    .ok ⟨cls, self, copyExpr cls x emptyAssum, assumptions⟩
  else .error (incompatibleMsg cls cls op)

/-- `Expr.__compat_add__` for two wrapped operands (lines 580-622).  The
final branch for the generic `Impedance`/`Admittance`/... classes is not
modelled (those classes are out of scope), so the ladder falls through to
`_incompatible` as in the source for every other pair. -/
def compatAdd (self x : LExpr) (op : String) : Except String CompatRes :=
  let cls := self.cls
  let xcls := x.cls
  let m :=
    if isSubclass cls .LaplaceC && isSubclass xcls .LaplaceC then
      lapAddMergeA cls self.node xcls x.node self.assum x.assum
    else (emptyAssum, self.assum, x.assum)
  let assumptions := m.1
  let self := { self with assum := m.2.1 }
  let x := { x with assum := m.2.2 }
  if cls = xcls then .ok ⟨cls, self, x, assumptions⟩
  else if isSubclass cls xcls then .ok ⟨cls, self, x, assumptions⟩
  else if isSubclass xcls cls then
    .ok ⟨xcls, self, copyExpr cls x emptyAssum, assumptions⟩
  else if xcls = .ExprC || xcls = .ConstantC then
    .ok ⟨cls, self, x, assumptions⟩
  else if cls = .ExprC || cls = .ConstantC then
    .ok ⟨xcls, copyExpr cls self emptyAssum, x, assumptions⟩
  else .error (incompatibleMsg cls xcls op)

/-- `Expr.__mul__` after the compatibility step: build the product node
and hand it to the result class constructor with the merged assumptions. -/
def exprMul (self x : LExpr) : Except String LExpr :=
  (compatMul self x "*").map fun r =>
    mkExpr r.cls (fmul r.self.node r.x.node) r.assum

/-- `Expr.__truediv__`. -/
def exprDiv (self x : LExpr) : Except String LExpr :=
  (compatMul self x "/").map fun r =>
    mkExpr r.cls (fdiv r.self.node r.x.node) r.assum

/-- `Expr.__pow__`. -/
def exprPow (self x : LExpr) : Except String LExpr :=
  (compatMul self x "**").map fun r =>
    mkExpr r.cls (fpow r.self.node r.x.node) r.assum

/-- Shared tail of `__add__`/`__sub__` after the superkind check. -/
def addCore (self x : LExpr) (op : String) (f : Frac → Frac → Frac) :
    Except String LExpr :=
  (compatAdd self x op).map fun r =>
    mkExpr r.cls (f r.self.node r.x.node) r.assum

/-- Promotion target for a superkind name. -/
def superPromote (k : String) : PyClass :=
  if k = "Voltage" then .VoltageGenC else .CurrentGenC

/-- `Expr.__add__`: operands of different concrete classes sharing a
superkind are first promoted to the generic quantity class (the recursive
call then takes the ordinary path, inlined here since the promoted
operands share a class). -/
def exprAdd (self x : LExpr) : Except String LExpr :=
  match superkind self.cls, superkind x.cls with
  | some k1, some k2 =>
    if self.cls ≠ x.cls ∧ k1 = k2 then
      addCore (copyExpr (superPromote k1) self emptyAssum)
              (copyExpr (superPromote k1) x emptyAssum) "+" fadd
    else addCore self x "+" fadd
  | _, _ => addCore self x "+" fadd

/-- `Expr.__sub__`, with the same superkind promotion. -/
def exprSub (self x : LExpr) : Except String LExpr :=
  match superkind self.cls, superkind x.cls with
  | some k1, some k2 =>
    if self.cls ≠ x.cls ∧ k1 = k2 then
      addCore (copyExpr (superPromote k1) self emptyAssum)
              (copyExpr (superPromote k1) x emptyAssum) "-" fsub
    else addCore self x "-" fsub
  | _, _ => addCore self x "-" fsub

/-- The right operand of a comparison: `None`, a plain list, or a wrapped
expression. -/
inductive CmpArg
  | pyNone
  | pyList (xs : List LExpr)
  | pyExpr (e : LExpr)

/-- `Expr.__eq__`: `None` and plain lists compare unequal; an
incompatibility `ValueError` from `__compat_add__` is caught and turned
into `False`; otherwise the backend difference is simplified and compared
with zero (semantic, not structural, equality). -/
def exprEq (self : LExpr) : CmpArg → Bool
  | .pyNone => false
  | .pyList _ => false
  | .pyExpr x =>
    match compatAdd self x "==" with
    | .error _ => false
    | .ok r => semEqZero r.self.node (copyExpr r.cls r.x emptyAssum).node

/-- `Expr.__ne__`: `None` compares not-equal, but unlike `__eq__` there is
no `try`: an incompatibility error propagates to the caller.  A plain
list operand reaches backend conversion and fails there (not modelled
further; no claim exercises it). -/
def exprNe (self : LExpr) : CmpArg → Except String Bool
  | .pyNone => .ok true
  | .pyList _ => .error "cannot sympify list operand"
  | .pyExpr x =>
    (compatAdd self x "!=").map fun r =>
      !(semEqZero r.self.node (copyExpr r.cls r.x emptyAssum).node)

/-- Shared body of the four ordering comparisons for expression operands:
resolve compatibility, then apply the backend relational operator, which
returns a Boolean only when both sides are constants (`none` models
SymPy's unevaluated symbolic relational). -/
def cmpRel (self x : LExpr) (op : String) (rel : ℚ → ℚ → Bool) :
    Except String (Option Bool) :=
  (compatAdd self x op).map fun r =>
    match constVal r.self.node, constVal (copyExpr r.cls r.x emptyAssum).node with
    | some p, some q => some (rel p q)
    | _, _ => none

/-- `Expr.__gt__`: a `None` operand yields `True`. -/
def exprGt (self : LExpr) : CmpArg → Except String (Option Bool)
  | .pyNone => .ok (some true)
  | .pyList _ => .error "cannot sympify list operand"
  | .pyExpr x => cmpRel self x ">" (fun p q => decide (p > q))

/-- `Expr.__ge__`: a `None` operand yields `True`. -/
def exprGe (self : LExpr) : CmpArg → Except String (Option Bool)
  | .pyNone => .ok (some true)
  | .pyList _ => .error "cannot sympify list operand"
  | .pyExpr x => cmpRel self x ">=" (fun p q => decide (p ≥ q))

/-- `Expr.__lt__`: a `None` operand yields `True` (the source returns
`True` here just as in `__gt__`). -/
def exprLt (self : LExpr) : CmpArg → Except String (Option Bool)
  | .pyNone => .ok (some true)
  | .pyList _ => .error "cannot sympify list operand"
  | .pyExpr x => cmpRel self x "<" (fun p q => decide (p < q))

/-- `Expr.__le__`: a `None` operand yields `True`. -/
def exprLe (self : LExpr) : CmpArg → Except String (Option Bool)
  | .pyNone => .ok (some true)
  | .pyList _ => .error "cannot sympify list operand"
  | .pyExpr x => cmpRel self x "<=" (fun p q => decide (p ≤ q))

/-- `TimeDomainVoltage.__mul__`: refuse a time-domain admittance operand
(convolution required) before the whitelist of multipliable types; any
other wrapped class is incompatible.  Unwrapped numeric operands are not
modelled. -/
def tdvMul (self x : LExpr) : Except String LExpr :=
  if isSubclass x.cls .TimeAdmittanceC then .error "Need to convolve expressions."
  else if isSubclass x.cls .ConstantC || isSubclass x.cls .TimeC then
    exprMul self x
  else .error (incompatibleMsg self.cls x.cls "*")

/-- `TimeDomainVoltage.__truediv__`: refuse a time-domain impedance
operand (deconvolution required). -/
def tdvDiv (self x : LExpr) : Except String LExpr :=
  if isSubclass x.cls .TimeImpedanceC then .error "Need to deconvolve expressions."
  else if isSubclass x.cls .ConstantC || isSubclass x.cls .TimeC then
    exprDiv self x
  else .error (incompatibleMsg self.cls x.cls "/")

/-- `TimeDomainCurrent.__mul__`: refuse a time-domain impedance operand
(convolution required). -/
def tdcMul (self x : LExpr) : Except String LExpr :=
  if isSubclass x.cls .TimeImpedanceC then .error "Need to convolve expressions."
  else if isSubclass x.cls .ConstantC || isSubclass x.cls .TimeC then
    exprMul self x
  else .error (incompatibleMsg self.cls x.cls "*")

/-- `TimeDomainCurrent.__truediv__`: refuse a time-domain admittance
operand (deconvolution required). -/
def tdcDiv (self x : LExpr) : Except String LExpr :=
  if isSubclass x.cls .TimeAdmittanceC then .error "Need to deconvolve expressions."
  else if isSubclass x.cls .ConstantC || isSubclass x.cls .TimeC then
    exprDiv self x
  else .error (incompatibleMsg self.cls x.cls "/")

/-- The rational-function view is available exactly when the class fixes a
domain variable: `Expr._ratfun` is `None` iff `self.var is None`, and
otherwise always yields a `Ratfun` object. -/
def ratfunAvailable (e : LExpr) : Bool := (classVar e.cls).isSome

/-- `self.expr.has(self.var)`: with a domain variable the node mentions it
exactly when the node is nonconstant; with `var` unset, SymPy's
`has(None)` finds no subterm equal to `None` and returns `False`. -/
def exprHasVar (e : LExpr) : Bool :=
  match classVar e.cls with
  | none => false
  | some _ => !(isConstP e.node.num && isConstP e.node.den)

/-- `Expr.copy`: re-enter the constructor with the wrapped node and the
current assumptions (the direct path, zero special case included). -/
def exprCopy (e : LExpr) : LExpr := mkExpr e.cls e.node e.assum

/-- Modelled from the spec: `Ratfun.canonical` (module `ratfun.py` is not
under `src/`).  Spec §4.2 and §8: the conversion is a value-preserving
rewrite (denominator made monic); on the integer-coefficient model the
monic rescaling is not representable and no claim inspects this branch,
so the value-preserving rewrite is the identity on the representation. -/
def ratfunCanonical (x : Frac) : Frac := x

/-- Modelled from the spec: the remaining `Ratfun` conversions (general,
partfrac, standard, timeconst, ZPK, expandcanonical; `ratfun.py` is not
under `src/`).  Spec §8: all these forms represent the same rational
function; the claims only exercise the unavailable-view branch, so the
value-preserving rewrite is modelled as the identity on the (already
expanded) fragment representation. -/
def ratfunRewrite (x : Frac) : Frac := x

/-- `Expr.canonical` (line 1564): an expression without its variable is
returned as is; an unavailable view degrades to a copy; otherwise the
`Ratfun` result re-enters the constructor. -/
def canonical (e : LExpr) : LExpr :=
  if !(exprHasVar e) then e
  else if !(ratfunAvailable e) then exprCopy e
  else mkExpr e.cls (ratfunCanonical e.node) e.assum

/-- `Expr.general`. -/
def general (e : LExpr) : LExpr :=
  if !(ratfunAvailable e) then exprCopy e
  else mkExpr e.cls (ratfunRewrite e.node) e.assum

/-- `Expr.partfrac` (the `ValueError` fallback to `as_sum` cannot trigger
on the modelled fragment, whose decomposition is total). -/
def partfrac (e : LExpr) : LExpr :=
  if !(ratfunAvailable e) then exprCopy e
  else mkExpr e.cls (ratfunRewrite e.node) e.assum

/-- `Expr.standard`. -/
def standard (e : LExpr) : LExpr :=
  if !(ratfunAvailable e) then exprCopy e
  else mkExpr e.cls (ratfunRewrite e.node) e.assum

/-- `Expr.timeconst`. -/
def timeconst (e : LExpr) : LExpr :=
  if !(ratfunAvailable e) then exprCopy e
  else mkExpr e.cls (ratfunRewrite e.node) e.assum

/-- `Expr.ZPK`. -/
def ZPK (e : LExpr) : LExpr :=
  if !(ratfunAvailable e) then exprCopy e
  else mkExpr e.cls (ratfunRewrite e.node) e.assum

/-- `Expr.factored` (alias body of ZPK, transcribed separately as in the
source). -/
def factored (e : LExpr) : LExpr :=
  if !(ratfunAvailable e) then exprCopy e
  else mkExpr e.cls (ratfunRewrite e.node) e.assum

/-- `Expr.expandcanonical`. -/
def expandcanonical (e : LExpr) : LExpr :=
  if !(ratfunAvailable e) then exprCopy e
  else mkExpr e.cls (ratfunRewrite e.node) e.assum

/-- Highest-degree-first coefficient list (`Poly.all_coeffs`; the zero
polynomial yields `[0]`). -/
def allCoeffsHighFirst (p : Poly) : List ℤ :=
  match trim p with
  | [] => [(0 : ℤ)]
  | t => t.reverse

/-- `sympy.Poly(expr, var)` on the fragment: succeeds exactly when the
structural denominator is constant (SymPy performs no cancellation here),
returning the coefficients highest-degree-first, each divided by the
constant denominator (kept as a constant quotient node). -/
def polyCoeffsFracs (x : Frac) : Option (List Frac) :=
  match trim x.den with
  | [d] => some ((allCoeffsHighFirst x.num).map fun a => (⟨[a], [d]⟩ : Frac))
  | _ => none

/-- `Expr.coeffs` (line 1725): with the view unavailable the expression
itself is returned as a one-element container; otherwise a failed
polynomial conversion raises the error naming the `.N`/`.D` accessors. -/
def coeffs (e : LExpr) : Except String (List LExpr) :=
  if !(ratfunAvailable e) then .ok [e]
  else
    match polyCoeffsFracs e.node with
    | some cs => .ok (cs.map fun f => mkExpr .ConstantC f emptyAssum)
    | none => .error "Use .N or .D attribute to specify numerator or denominator of rational function"

/-- A Python complex number on the modelled (exact) number fragment. -/
structure PyComplexQ where
  re : ℚ
  im : ℚ
deriving DecidableEq

/-- A scalar as it flows through `Expr.evaluate`: either a Python float or
a Python complex. -/
inductive PyNum
  | real (q : ℚ)
  | cplx (z : PyComplexQ)
deriving DecidableEq

/-- A numpy real result that may be the infinity `np.inf`. -/
inductive NpExt
  | fin (q : ℚ)
  | inf
deriving DecidableEq

/-- The `dirac` special case inside `Expr.evaluate`: `np.inf` at argument
exactly 0, else 0. -/
def diracFn (arg : ℚ) : NpExt := if arg = 0 then .inf else .fin 0

/-- The `unitimpulse` special case: 1 at argument exactly 0, else 0. -/
def unitimpulseFn (arg : ℚ) : ℚ := if arg = 0 then 1 else 0

/-- The `heaviside` special case: 1 for argument at least 0, else 0. -/
def heavisideFn (arg : ℚ) : ℚ := if arg ≥ 0 then 1 else 0

/-- The argument-clipping step of the `exp` special case: a complex
argument has its real part replaced by 500 when it exceeds 500 (the
imaginary part always passes through); a real argument is replaced by 500
when it exceeds 500. -/
def expClipArg : PyNum → PyNum
  | .cplx z => if z.re > 500 then .cplx ⟨500, z.im⟩ else .cplx z
  | .real q => if q > 500 then .real 500 else .real q

/-- The promotion step of the `sqrt` special case: a negative
non-complex argument is promoted to complex (adding `0j`) before the
root is taken, so no NaN is produced. -/
def sqrtPromote : PyNum → PyNum
  | .real q => if q < 0 then .cplx ⟨q, 0⟩ else .real q
  | .cplx z => .cplx z

/-- Bound on the magnitude of both parts, used to state what the claim's
"clipped at a magnitude of 500" would require of the clipping step. -/
def partsWithin500 : PyNum → Bool
  | .real q => decide (q ≤ 500 ∧ -500 ≤ q)
  | .cplx z => decide (z.re ≤ 500 ∧ -500 ≤ z.re ∧ z.im ≤ 500 ∧ -500 ≤ z.im)

/-- The scalar collapse at the end of `Expr.evaluate`: a result whose
imaginary part is (numerically) zero is returned as a real. -/
def collapseReal (z : PyComplexQ) : PyNum :=
  if z.im = 0 then .real z.re else .cplx z

/-- A node without free symbols: on the univariate fragment, one that
does not involve the indeterminate. -/
def isConstFrac (x : Frac) : Bool := isConstP x.num && isConstP x.den

/-- `expr.evalf()` on a symbol-free node: its constant value as a float
(the only context in which `Expr.evaluate` calls it). -/
def evalfNode (x : Frac) : PyNum := .real ((constVal x).getD 0)

/-- The scalar path of the inner `evaluate_expr` (expr.py:1149-1180): the
wrapped `func` short-circuits a causal expression at a negative argument
to 0 before the lambdified callable `func1` is consulted; a `func1`
failure surfaces as the `Cannot evaluate expression` runtime error, and a
result with zero imaginary part collapses to a real. -/
def evaluate_expr_scalar (isCausal : Bool) (func1 : ℚ → Option PyComplexQ)
    (arg : ℚ) : Except String PyNum :=
  if isCausal && decide (arg < 0) then .ok (collapseReal ⟨0, 0⟩)
  else
    match func1 arg with
    | some z => .ok (collapseReal z)
    | none => .error "Cannot evaluate expression"

/-- `Expr.evaluate` (expr.py:1086-1231), scalar arguments.  The property
`self.is_causal` is queried first (line 1094).  Top-level dispatch: with
`var` unset, a node without free symbols returns `expr.evalf()` directly
— for a present argument after printing `Ignoring arg` — so the causal
short-circuit is never reached, while a node with a free symbol needs an
argument (else the undefined-symbols error) and is evaluated through
`evaluate_expr`; with `var` set, a missing argument either raises
`Need value to evaluate expression at` (variable present in the node) or
is replaced by 0, and evaluation proceeds through `evaluate_expr`.  (On
the univariate fragment a node has at most one free symbol, so the
surplus-undefined-symbols errors cannot arise; `arg.evalf()` is the
identity on the scalar fragment.) -/
def evaluate (e : LExpr) (func1 : ℚ → Option PyComplexQ) (arg : Option ℚ) :
    Except String PyNum :=
  let isCausal := (is_causal e).1
  match classVar e.cls with
  | none =>
    if isConstFrac e.node then .ok (evalfNode e.node)
    else
      match arg with
      | none => .error "Undefined symbols"
      | some a => evaluate_expr_scalar isCausal func1 a
  | some _ =>
    match arg with
    | none =>
      if !(isConstFrac e.node) then .error "Need value to evaluate expression at"
      else evaluate_expr_scalar isCausal func1 0
    | some a => evaluate_expr_scalar isCausal func1 a

/-- An iterable argument handed to the `expr` factory: a Python list,
tuple, generator, or dict of wrapped expressions. -/
inductive PyIterArg
  | alist (xs : List LExpr)
  | atuple (xs : List LExpr)
  | agen (xs : List LExpr)
  | adict (ps : List (LExpr × LExpr))

/-- A container wrapper instance. -/
inductive EContainer
  | elist (xs : List LExpr)
  | etuple (xs : List LExpr)
  | edict (ps : List (LExpr × LExpr))
deriving DecidableEq

/-- `exprcontainer` (line 2052): dispatch a list, tuple or dict to the
corresponding wrapper; any other iterable (a generator, notably) falls
through to the `Unsupported exprcontainer` raise.  (The Python raise
itself crashes while formatting `arg.__class__.name`, an `AttributeError`;
either way an exception propagates.) -/
def exprcontainer : PyIterArg → Except String EContainer
  | .alist xs => .ok (.elist xs)
  | .atuple xs => .ok (.etuple xs)
  | .adict ps => .ok (.edict ps)
  | .agen _ => .error "Unsupported exprcontainer"

/-- The `expr` factory applied to a non-string iterable argument (line
2093): it hands the iterable to `exprcontainer`. -/
def exprOnIterable (a : PyIterArg) : Except String EContainer :=
  exprcontainer a

/-- `ExprList.subs`: the elementwise results are passed to `expr` as a
Python list (a list comprehension), so the list kind survives.  The
element-level substitution is abstracted as `f`. -/
def exprListSubs (f : LExpr → LExpr) (xs : List LExpr) :
    Except String EContainer :=
  exprOnIterable (.alist (xs.map f))

/-- `ExprTuple.subs`: the elementwise results are passed to `expr` as a
generator expression, not a tuple. -/
def exprTupleSubs (f : LExpr → LExpr) (xs : List LExpr) :
    Except String EContainer :=
  exprOnIterable (.agen (xs.map f))

/-- `ExprDict.subs`: a new dict of the same class is built entry by entry,
each key and value substituted under `try`/`except` (the element map `f`
is total here, so every entry succeeds). -/
def exprDictSubs (f : LExpr → LExpr) (ps : List (LExpr × LExpr)) :
    EContainer :=
  .edict (ps.map fun p => (f p.1, f p.2))

/-- `ExprContainer.evaluate` / `ExprDict.evaluate`: rebuild
`self.__class__` from the elementwise `evalf` results (abstracted as
`g`), preserving the container kind. -/
def containerEvaluate (g : LExpr → LExpr) : EContainer → EContainer
  | .elist xs => .elist (xs.map g)
  | .etuple xs => .etuple (xs.map g)
  | .edict ps => .edict (ps.map fun p => (g p.1, g p.2))

/-- `ExprContainer.simplify` / `ExprDict.simplify`: rebuild
`self.__class__` from the elementwise simplification; dict keys are not
simplified. -/
def containerSimplify (g : LExpr → LExpr) : EContainer → EContainer
  | .elist xs => .elist (xs.map g)
  | .etuple xs => .etuple (xs.map g)
  | .edict ps => .edict (ps.map fun p => (p.1, g p.2))

/-- An assumptions record is settled when the three lazily inferred keys
are all present — the state any expression reaches after a property query
or inference, under which the queries are pure. -/
def settled (A : Assump) : Bool := A.causal.isSome && A.dc.isSome && A.ac.isSome

/-- Claim-side reading of "the operand is causal". -/
def claimCausal (A : Assump) : Bool := A.causal == some (some true)

/-- Claim-side reading of "the operand is dc". -/
def claimDc (A : Assump) : Bool := A.dc == some (some true)

/-- Claim-side reading of "the operand is ac". -/
def claimAc (A : Assump) : Bool := A.ac == some (some true)

/-- The assumption-merge rule exactly as the claim states it: causal if
either operand is causal; else the left operand's assumptions if both are
dc, or both ac; else promotion to ac when one is ac and the other dc;
else nothing. -/
def claimMergeMulA (SA XA : Assump) : Assump :=
  if claimCausal SA || claimCausal XA then causalTrueAssum
  else if claimDc SA && claimDc XA then SA
  else if claimAc SA && claimAc XA then SA
  else if claimAc SA && claimDc XA || claimDc SA && claimAc XA then acTrueAssum
  else emptyAssum

/-- Forcing `causal = True` into a record, as the constructor's
literal-zero special case does. -/
def forceCausal (A : Assump) : Assump := { A with causal := some (some true) }

theorem toPoly_nil : toPoly [] = 0 := rfl

theorem toPoly_cons (c : ℤ) (p : Poly) :
    toPoly (c :: p) = Polynomial.C c + Polynomial.X * toPoly p := rfl

theorem toPoly_padd (p q : Poly) : toPoly (padd p q) = toPoly p + toPoly q := by
  induction p generalizing q with
  | nil => simp [padd, toPoly]
  | cons a p ih =>
    cases q with
    | nil => simp [padd, toPoly]
    | cons b q =>
      simp only [padd, toPoly_cons, ih, Polynomial.C_add]
      ring

theorem toPoly_pneg (p : Poly) : toPoly (pneg p) = -toPoly p := by
  induction p with
  | nil => simp [pneg, toPoly]
  | cons a p ih =>
    simp only [pneg, List.map_cons, toPoly_cons, Polynomial.C_neg] at *
    rw [ih]
    ring

theorem toPoly_psub (p q : Poly) : toPoly (psub p q) = toPoly p - toPoly q := by
  rw [psub, toPoly_padd, toPoly_pneg]; ring

theorem toPoly_pscale (c : ℤ) (p : Poly) :
    toPoly (pscale c p) = Polynomial.C c * toPoly p := by
  induction p with
  | nil => simp [pscale, toPoly]
  | cons a p ih =>
    simp only [pscale, List.map_cons, toPoly_cons, Polynomial.C_mul] at *
    rw [ih]
    ring

theorem toPoly_pmul (p q : Poly) : toPoly (pmul p q) = toPoly p * toPoly q := by
  induction p with
  | nil => simp [pmul, toPoly]
  | cons a p ih =>
    simp only [pmul, toPoly_padd, toPoly_pscale, toPoly_cons, ih, Polynomial.C_0]
    ring

theorem isZeroP_iff (p : Poly) : isZeroP p = true ↔ toPoly p = 0 := by
  induction p with
  | nil => simp [isZeroP, toPoly]
  | cons c p ih =>
    simp only [isZeroP, List.all_cons, Bool.and_eq_true, decide_eq_true_eq,
      toPoly_cons] at *
    constructor
    · rintro ⟨hc, hp⟩
      rw [hc, ih.mp hp]
      simp
    · intro h
      have hc : c = 0 := by
        have h0 := congrArg (fun r => Polynomial.coeff r 0) h
        simp only [Polynomial.coeff_add, Polynomial.coeff_C_zero,
          Polynomial.mul_coeff_zero, Polynomial.coeff_X_zero, zero_mul,
          add_zero, Polynomial.coeff_zero] at h0
        exact h0
      refine ⟨hc, ih.mpr ?_⟩
      ext n
      have h1 := congrArg (fun r => Polynomial.coeff r (n + 1)) h
      simp only [Polynomial.coeff_add, Polynomial.coeff_C,
        Polynomial.coeff_X_mul, Polynomial.coeff_zero, Nat.succ_ne_zero,
        if_false, zero_add] at h1
      exact h1

theorem semEqZero_add_sub_cancel (A B : Frac) :
    semEqZero (fsub (fadd A B) B) A = true := by
  rw [semEqZero, fzero, isZeroP_iff]
  simp only [fadd, fsub, toPoly_psub, toPoly_padd, toPoly_pmul]
  ring

/-- C2: multiplying a time-domain voltage by a time-domain admittance
raises the error instructing the caller to convolve, as does multiplying a
time-domain current by a time-domain impedance; dividing a time-domain
voltage by a time-domain impedance, or a time-domain current by a
time-domain admittance, raises the error instructing deconvolution.  No
algebraic product or quotient is ever returned for these pairs. -/
theorem spec_c2_time_convolution_guards (v y i z : LExpr)
    (hv : v.cls = .TimeVoltageC) (hy : y.cls = .TimeAdmittanceC)
    (hi : i.cls = .TimeCurrentC) (hz : z.cls = .TimeImpedanceC) :
    tdvMul v y = .error "Need to convolve expressions." ∧
    tdcMul i z = .error "Need to convolve expressions." ∧
    tdvDiv v z = .error "Need to deconvolve expressions." ∧
    tdcDiv i y = .error "Need to deconvolve expressions." := by
  refine ⟨?_, ?_, ?_, ?_⟩ <;>
    simp [tdvMul, tdcMul, tdvDiv, tdcDiv, hy, hz, isSubclass, superclasses,
      parentClass]

/-- C2 witness: the guards fire on concrete unit-valued operands. -/
theorem spec_c2_time_convolution_guards_witness :
    tdvMul ⟨.TimeVoltageC, fconst 1, emptyAssum⟩
        ⟨.TimeAdmittanceC, fconst 1, emptyAssum⟩
      = .error "Need to convolve expressions." ∧
    tdcMul ⟨.TimeCurrentC, fconst 1, emptyAssum⟩
        ⟨.TimeImpedanceC, fconst 1, emptyAssum⟩
      = .error "Need to convolve expressions." ∧
    tdvDiv ⟨.TimeVoltageC, fconst 1, emptyAssum⟩
        ⟨.TimeImpedanceC, fconst 1, emptyAssum⟩
      = .error "Need to deconvolve expressions." ∧
    tdcDiv ⟨.TimeCurrentC, fconst 1, emptyAssum⟩
        ⟨.TimeAdmittanceC, fconst 1, emptyAssum⟩
      = .error "Need to deconvolve expressions." :=
  spec_c2_time_convolution_guards _ _ _ _ rfl rfl rfl rfl

/-- C4 counterexample: a causal expression whose domain variable is unset
and whose node has no free symbols — `Expr(1, causal=True)` — evaluated
at the negative scalar -1 does not return 0: the var-None dispatch of
`Expr.evaluate` returns `expr.evalf()` (here 1) before the causal
short-circuit is ever reached. -/
theorem spec_c4_causal_const_counterexample :
    (is_causal ⟨.ExprC, fconst 1, causalTrueAssum⟩).1 = true ∧
    (-1 : ℚ) < 0 ∧
    evaluate ⟨.ExprC, fconst 1, causalTrueAssum⟩ (fun _ => none) (some (-1))
      = .ok (PyNum.real 1) ∧
    PyNum.real 1 ≠ PyNum.real 0 := by
  refine ⟨by decide, by norm_num, ?_, by decide⟩
  have h2 : evalfNode (fconst 1) = PyNum.real 1 := by
    show PyNum.real (((1 : ℤ) : ℚ) / ((1 : ℤ) : ℚ)) = PyNum.real 1
    norm_num
  rw [← h2]
  rfl

/-- C4 (amended): for a causal expression, scalar evaluation at a
negative argument returns 0 directly — the compiled formula `func1` is
never consulted (the theorem holds for every `func1`, a failing one
included) — provided evaluation reaches the compiled-formula path: the
domain variable is set, or it is unset and the node has a free symbol.  A
causal expression with the variable unset and no free symbols instead
returns `expr.evalf()`, ignoring the argument entirely. -/
theorem spec_c4_causal_short_circuit_on_formula_path (e : LExpr)
    (func1 : ℚ → Option PyComplexQ) (arg : ℚ)
    (hc : (is_causal e).1 = true) (ha : arg < 0) :
    ((classVar e.cls).isSome = true ∨ isConstFrac e.node = false →
      evaluate e func1 (some arg) = .ok (PyNum.real 0)) ∧
    (classVar e.cls = none → isConstFrac e.node = true →
      evaluate e func1 (some arg) = .ok (evalfNode e.node)) := by
  have hsc : evaluate_expr_scalar (is_causal e).1 func1 arg
      = .ok (PyNum.real 0) := by
    unfold evaluate_expr_scalar
    rw [hc]
    simp [ha, collapseReal]
  constructor
  · intro hpath
    rcases hv : classVar e.cls with _ | v
    · rcases hpath with hs | hnc
      · rw [hv] at hs
        simp at hs
      · simp only [evaluate, hv, hnc]
        simpa using hsc
    · simp only [evaluate, hv]
      exact hsc
  · intro hv hconst
    simp [evaluate, hv, hconst]

/-- C4 witness: a causal Laplace-domain constant (variable set) and a
causal variable-unset expression with a free symbol both short-circuit to
0 at -1 under a formula that always fails. -/
theorem spec_c4_causal_short_circuit_on_formula_path_witness :
    (is_causal ⟨.LaplaceC, fconst 1, causalTrueAssum⟩).1 = true ∧
    (-1 : ℚ) < 0 ∧
    evaluate ⟨.LaplaceC, fconst 1, causalTrueAssum⟩ (fun _ => none)
      (some (-1)) = .ok (PyNum.real 0) ∧
    evaluate ⟨.ExprC, fvar, causalTrueAssum⟩ (fun _ => none)
      (some (-1)) = .ok (PyNum.real 0) :=
  ⟨by decide, by norm_num,
   (spec_c4_causal_short_circuit_on_formula_path
      ⟨.LaplaceC, fconst 1, causalTrueAssum⟩ (fun _ => none) (-1)
      (by decide) (by norm_num)).1 (Or.inl (by decide)),
   (spec_c4_causal_short_circuit_on_formula_path
      ⟨.ExprC, fvar, causalTrueAssum⟩ (fun _ => none) (-1)
      (by decide) (by norm_num)).1 (Or.inr (by decide))⟩

/-- C7: comparisons against `None` and plain lists: equality with `None`
or a list is `False`, inequality with `None` is `True`, and all four
ordering comparisons against `None` return `True`. -/
theorem spec_c7_none_and_list_comparisons (e : LExpr) (xs : List LExpr) :
    exprEq e CmpArg.pyNone = false ∧
    exprEq e (CmpArg.pyList xs) = false ∧
    exprNe e CmpArg.pyNone = .ok true ∧
    exprGt e CmpArg.pyNone = .ok (some true) ∧
    exprGe e CmpArg.pyNone = .ok (some true) ∧
    exprLt e CmpArg.pyNone = .ok (some true) ∧
    exprLe e CmpArg.pyNone = .ok (some true) :=
  ⟨rfl, rfl, rfl, rfl, rfl, rfl, rfl⟩

/-- C7 counterexample: the claim says `x < None` and `x <= None` are
`False`; the source returns `True` from both `__lt__` and `__le__` when
the operand is `None`. -/
theorem spec_c7_lt_none_counterexample :
    exprLt ⟨.ExprC, fconst 1, emptyAssum⟩ CmpArg.pyNone = .ok (some true) ∧
    exprLe ⟨.ExprC, fconst 1, emptyAssum⟩ CmpArg.pyNone = .ok (some true) ∧
    (Except.ok (some true) : Except String (Option Bool)) ≠ .ok (some false) :=
  ⟨rfl, rfl, by simp⟩

/-- C10: on a time-domain voltage and a time-domain current (incompatible
for addition), `==` returns `False` because the `ValueError` from the
compatibility ladder is caught, while `!=` on the same operands lets the
same error propagate to the caller. -/
theorem spec_c10_eq_ne_asymmetry (v i : LExpr)
    (hv : v.cls = .TimeVoltageC) (hi : i.cls = .TimeCurrentC) :
    exprEq v (CmpArg.pyExpr i) = false ∧
    exprNe v (CmpArg.pyExpr i)
      = .error (incompatibleMsg .TimeVoltageC .TimeCurrentC "!=") := by
  obtain ⟨cv, nv, av⟩ := v
  obtain ⟨ci, ni, ai⟩ := i
  simp only at hv hi
  subst hv hi
  exact ⟨rfl, rfl⟩

/-- C5 counterexample: the claim says the exponential's argument is
clipped at a magnitude of 500 in its real or imaginary part.  The source
clips only the real part and only above +500: the argument `600j` passes
through unclipped (imaginary part 600), and the argument `-600` (magnitude
600) also passes through unclipped. -/
theorem spec_c5_exp_clip_counterexample :
    expClipArg (PyNum.cplx ⟨0, 600⟩) = PyNum.cplx ⟨0, 600⟩ ∧
    partsWithin500 (expClipArg (PyNum.cplx ⟨0, 600⟩)) = false ∧
    expClipArg (PyNum.real (-600)) = PyNum.real (-600) ∧
    partsWithin500 (expClipArg (PyNum.real (-600))) = false := by
  refine ⟨?_, ?_, ?_, ?_⟩ <;> decide

/-- C5 (amended): the Dirac delta evaluates to infinity at exactly 0 and
to 0 elsewhere; the unit impulse to 1 at exactly 0 and 0 elsewhere; the
Heaviside step to 1 for arguments at least 0 and 0 otherwise; the
exponential's argument has only its real part clipped, at +500 from above
(the imaginary part passes through and negative values are not clipped);
a negative real square-root argument is promoted to complex before the
root is taken. -/
theorem spec_c5_special_functions (q : ℚ) (z : PyComplexQ) :
    (q ≠ 0 → diracFn q = NpExt.fin 0) ∧
    diracFn 0 = NpExt.inf ∧
    (q ≠ 0 → unitimpulseFn q = 0) ∧
    unitimpulseFn 0 = 1 ∧
    (0 ≤ q → heavisideFn q = 1) ∧
    (q < 0 → heavisideFn q = 0) ∧
    expClipArg (PyNum.cplx z) = PyNum.cplx ⟨min z.re 500, z.im⟩ ∧
    expClipArg (PyNum.real q) = PyNum.real (min q 500) ∧
    (q < 0 → sqrtPromote (PyNum.real q) = PyNum.cplx ⟨q, 0⟩) ∧
    (0 ≤ q → sqrtPromote (PyNum.real q) = PyNum.real q) := by
  refine ⟨fun h => by simp [diracFn, h], rfl,
          fun h => by simp [unitimpulseFn, h], rfl,
          fun h => by simp [heavisideFn, h], fun h => ?_, ?_, ?_,
          fun h => by simp [sqrtPromote, h],
          fun h => by simp [sqrtPromote, not_lt.mpr h]⟩
  · simp [heavisideFn, not_le.mpr h]
  · rcases le_or_lt z.re 500 with h | h
    · simp [expClipArg, not_lt.mpr h, min_eq_left h]
    · simp [expClipArg, h, min_eq_right h.le]
  · rcases le_or_lt q 500 with h | h
    · simp [expClipArg, not_lt.mpr h, min_eq_left h]
    · simp [expClipArg, h, min_eq_right h.le]

/-- C5 witness: the guarded parts of the statement instantiated at -1
(and at 2 for the nonnegative cases). -/
theorem spec_c5_special_functions_witness :
    diracFn (-1) = NpExt.fin 0 ∧ unitimpulseFn (-1) = 0 ∧
    heavisideFn (-1) = 0 ∧ sqrtPromote (PyNum.real (-1)) = PyNum.cplx ⟨-1, 0⟩ ∧
    heavisideFn 2 = 1 ∧ sqrtPromote (PyNum.real 2) = PyNum.real 2 :=
  ⟨(spec_c5_special_functions (-1) ⟨0, 0⟩).1 (by norm_num),
   (spec_c5_special_functions (-1) ⟨0, 0⟩).2.2.1 (by norm_num),
   (spec_c5_special_functions (-1) ⟨0, 0⟩).2.2.2.2.2.1 (by norm_num),
   (spec_c5_special_functions (-1) ⟨0, 0⟩).2.2.2.2.2.2.2.2.1 (by norm_num),
   (spec_c5_special_functions 2 ⟨0, 0⟩).2.2.2.2.1 (by norm_num),
   (spec_c5_special_functions 2 ⟨0, 0⟩).2.2.2.2.2.2.2.2.2 (by norm_num)⟩

/-- C9: `ExprTuple.subs` hands its elementwise results to the `expr`
factory as a generator expression; `exprcontainer` supports no generator
branch and raises, so tuple substitution fails on every input instead of
returning an `ExprTuple` — while the parallel `ExprList.subs` (which
builds a list) succeeds and preserves the list kind. -/
theorem spec_c9_tuple_subs_fails :
    exprTupleSubs id [⟨.ExprC, fconst 1, emptyAssum⟩]
      = .error "Unsupported exprcontainer" ∧
    exprListSubs id [⟨.ExprC, fconst 1, emptyAssum⟩]
      = .ok (.elist [⟨.ExprC, fconst 1, emptyAssum⟩]) :=
  ⟨rfl, rfl⟩

theorem inferAssum_real (cls : PyClass) (node : Frac) (A : Assump) :
    (inferAssum cls node A).real = A.real := by
  unfold inferAssum timeInfer baseInfer
  split
  · split
    · rfl
    · split
      · rfl
      · split <;> rfl
  · rfl

theorem is_causalA_snd_real (cls : PyClass) (node : Frac) (A : Assump) :
    (is_causalA cls node A).2.real = A.real := by
  unfold is_causalA
  dsimp only
  split
  · exact inferAssum_real cls node A
  · rfl

theorem is_dcA_snd_real (cls : PyClass) (node : Frac) (A : Assump) :
    (is_dcA cls node A).2.real = A.real := by
  unfold is_dcA
  dsimp only
  split
  · exact inferAssum_real cls node A
  · rfl

theorem is_acA_snd_real (cls : PyClass) (node : Frac) (A : Assump) :
    (is_acA cls node A).2.real = A.real := by
  unfold is_acA
  dsimp only
  split
  · exact inferAssum_real cls node A
  · rfl

/-- C8 counterexample: the claim says property queries never mutate the
receiver's assumptions mapping.  Querying `is_dc` on a base expression
whose dict lacks the key triggers `infer_assumptions`, which writes
`None` entries for dc, ac and causal into the dict: the receiver's
mapping afterwards differs from the one before. -/
theorem spec_c8_is_dc_mutates_counterexample :
    (is_dc ⟨.ExprC, fconst 1, emptyAssum⟩).2.assum
      ≠ (⟨.ExprC, fconst 1, emptyAssum⟩ : LExpr).assum := by
  decide

/-- C8 (amended): the in-place writes of the property queries are exactly
the lazily computed cache entries: `is_dc`, `is_ac` and `is_causal` leave
the receiver's class and wrapped node untouched and write only the
dc/ac/causal assumption entries (the `real` entry, and everything else,
survives). -/
theorem spec_c8_lazy_inference_only_mutation (e : LExpr) :
    ((is_dc e).2.cls = e.cls ∧ (is_dc e).2.node = e.node ∧
      (is_dc e).2.assum.real = e.assum.real) ∧
    ((is_ac e).2.cls = e.cls ∧ (is_ac e).2.node = e.node ∧
      (is_ac e).2.assum.real = e.assum.real) ∧
    ((is_causal e).2.cls = e.cls ∧ (is_causal e).2.node = e.node ∧
      (is_causal e).2.assum.real = e.assum.real) :=
  ⟨⟨rfl, rfl, is_dcA_snd_real e.cls e.node e.assum⟩,
   ⟨rfl, rfl, is_acA_snd_real e.cls e.node e.assum⟩,
   ⟨rfl, rfl, is_causalA_snd_real e.cls e.node e.assum⟩⟩

theorem classVar_none_not_time (c : PyClass) (h : classVar c = none) :
    isSubclass c .TimeC = false := by
  revert h
  cases c <;> decide

/-- C3 counterexample: on an expression whose rational-function view is
unavailable (no domain variable) and whose node is a genuine rational
function (nonconstant denominator), `coeffs` does not raise: it returns
the expression itself wrapped in a one-element list. -/
theorem spec_c3_coeffs_no_raise_counterexample :
    ratfunAvailable ⟨.ExprC, ⟨[1], [1, 1]⟩, emptyAssum⟩ = false ∧
    polyCoeffsFracs (⟨[1], [1, 1]⟩ : Frac) = none ∧
    coeffs ⟨.ExprC, ⟨[1], [1, 1]⟩, emptyAssum⟩
      = .ok [⟨.ExprC, ⟨[1], [1, 1]⟩, emptyAssum⟩] := by
  refine ⟨rfl, by decide, rfl⟩

/-- C3 (amended): with the rational-function view unavailable, every
rational-function conversion returns the expression unchanged (for a
nonzero node, `canonical` even returns the very receiver), and `coeffs`
returns a one-element list holding the expression rather than raising;
the error naming the `.N`/`.D` accessors arises only when the view is
available and the node is a genuine rational function rather than a bare
polynomial. -/
theorem spec_c3_ratfun_unavailable_degrade :
    (∀ e : LExpr, ratfunAvailable e = false → fzero e.node = false →
      canonical e = e ∧ general e = e ∧ partfrac e = e ∧ standard e = e ∧
      timeconst e = e ∧ ZPK e = e ∧ factored e = e ∧ expandcanonical e = e ∧
      coeffs e = .ok [e]) ∧
    (∀ e : LExpr, ratfunAvailable e = true → polyCoeffsFracs e.node = none →
      coeffs e = .error "Use .N or .D attribute to specify numerator or denominator of rational function") := by
  constructor
  · intro e hav hz
    have hvar : classVar e.cls = none := by
      simpa [ratfunAvailable, Option.isNone_iff_eq_none] using hav
    have hnt : isSubclass e.cls .TimeC = false := classVar_none_not_time e.cls hvar
    have hcopy : exprCopy e = e := by
      unfold exprCopy mkExpr initAssum
      simp [hnt, hz]
    have hhv : exprHasVar e = false := by
      unfold exprHasVar
      rw [hvar]
    refine ⟨?_, ?_, ?_, ?_, ?_, ?_, ?_, ?_, ?_⟩
    · unfold canonical
      rw [hhv]
      simp
    · unfold general
      rw [hav]
      simpa using hcopy
    · unfold partfrac
      rw [hav]
      simpa using hcopy
    · unfold standard
      rw [hav]
      simpa using hcopy
    · unfold timeconst
      rw [hav]
      simpa using hcopy
    · unfold ZPK
      rw [hav]
      simpa using hcopy
    · unfold factored
      rw [hav]
      simpa using hcopy
    · unfold expandcanonical
      rw [hav]
      simpa using hcopy
    · unfold coeffs
      rw [hav]
      simp
  · intro e hav hpoly
    unfold coeffs
    rw [hav, hpoly]
    simp

/-- C3 witness: the degradation observed on a concrete variable-free
expression, and the `.N`/`.D` error on a concrete Laplace-domain rational
function. -/
theorem spec_c3_ratfun_unavailable_degrade_witness :
    (canonical ⟨.ExprC, ⟨[0, 1], [1]⟩, emptyAssum⟩
        = ⟨.ExprC, ⟨[0, 1], [1]⟩, emptyAssum⟩ ∧
      general ⟨.ExprC, ⟨[0, 1], [1]⟩, emptyAssum⟩
        = ⟨.ExprC, ⟨[0, 1], [1]⟩, emptyAssum⟩ ∧
      partfrac ⟨.ExprC, ⟨[0, 1], [1]⟩, emptyAssum⟩
        = ⟨.ExprC, ⟨[0, 1], [1]⟩, emptyAssum⟩ ∧
      standard ⟨.ExprC, ⟨[0, 1], [1]⟩, emptyAssum⟩
        = ⟨.ExprC, ⟨[0, 1], [1]⟩, emptyAssum⟩ ∧
      timeconst ⟨.ExprC, ⟨[0, 1], [1]⟩, emptyAssum⟩
        = ⟨.ExprC, ⟨[0, 1], [1]⟩, emptyAssum⟩ ∧
      ZPK ⟨.ExprC, ⟨[0, 1], [1]⟩, emptyAssum⟩
        = ⟨.ExprC, ⟨[0, 1], [1]⟩, emptyAssum⟩ ∧
      factored ⟨.ExprC, ⟨[0, 1], [1]⟩, emptyAssum⟩
        = ⟨.ExprC, ⟨[0, 1], [1]⟩, emptyAssum⟩ ∧
      expandcanonical ⟨.ExprC, ⟨[0, 1], [1]⟩, emptyAssum⟩
        = ⟨.ExprC, ⟨[0, 1], [1]⟩, emptyAssum⟩ ∧
      coeffs ⟨.ExprC, ⟨[0, 1], [1]⟩, emptyAssum⟩
        = .ok [⟨.ExprC, ⟨[0, 1], [1]⟩, emptyAssum⟩]) ∧
    coeffs ⟨.LaplaceC, ⟨[1], [1, 1]⟩, emptyAssum⟩
      = .error "Use .N or .D attribute to specify numerator or denominator of rational function" :=
  ⟨spec_c3_ratfun_unavailable_degrade.1 _ (by decide) (by decide),
   spec_c3_ratfun_unavailable_degrade.2 _ (by decide) (by decide)⟩

theorem mkExpr_cls (c : PyClass) (n : Frac) (A : Assump) :
    (mkExpr c n A).cls = c := rfl

theorem mkExpr_node (c : PyClass) (n : Frac) (A : Assump) :
    (mkExpr c n A).node = n := rfl

theorem copyExpr_node (c : PyClass) (src : LExpr) (A : Assump) :
    (copyExpr c src A).node = src.node := rfl

theorem compatAdd_sameClass (a b : LExpr) (op : String) (h : a.cls = b.cls) :
    ∃ SA XA asm,
      compatAdd a b op
        = .ok ⟨a.cls, ⟨a.cls, a.node, SA⟩, ⟨b.cls, b.node, XA⟩, asm⟩ := by
  obtain ⟨ca, na, aa⟩ := a
  obtain ⟨cb, nb, ab⟩ := b
  simp only at h
  subst h
  refine ⟨(if isSubclass ca .LaplaceC = true then
            lapAddMergeA ca na ca nb aa ab else (emptyAssum, aa, ab)).2.1,
          (if isSubclass ca .LaplaceC = true then
            lapAddMergeA ca na ca nb aa ab else (emptyAssum, aa, ab)).2.2,
          (if isSubclass ca .LaplaceC = true then
            lapAddMergeA ca na ca nb aa ab else (emptyAssum, aa, ab)).1, ?_⟩
  simp [compatAdd]

theorem addCore_ok (s x : LExpr) (op : String) (f : Frac → Frac → Frac)
    (r : CompatRes) (hc : compatAdd s x op = .ok r) :
    addCore s x op f = .ok (mkExpr r.cls (f r.self.node r.x.node) r.assum) := by
  simp [addCore, hc, Except.map]

theorem exprAdd_sameClass (a b : LExpr) (h : a.cls = b.cls) :
    exprAdd a b = addCore a b "+" fadd := by
  unfold exprAdd
  rcases hka : superkind a.cls with _ | k1 <;>
    rcases hkb : superkind b.cls with _ | k2 <;> simp only []
  rw [if_neg]
  simp [h]

theorem exprSub_sameClass (a b : LExpr) (h : a.cls = b.cls) :
    exprSub a b = addCore a b "-" fsub := by
  unfold exprSub
  rcases hka : superkind a.cls with _ | k1 <;>
    rcases hkb : superkind b.cls with _ | k2 <;> simp only []
  rw [if_neg]
  simp [h]

/-- C6: for operands of the same concrete class, `+` and `-` succeed and
preserve that class, and `(a + b) - b == a` holds under the semantic
equality of `__eq__` (the backend difference simplifies to exactly
zero). -/
theorem spec_c6_add_sub_type_and_cancel (a b : LExpr) (h : a.cls = b.cls) :
    ∃ s d r, exprAdd a b = .ok s ∧ s.cls = a.cls ∧
      exprSub a b = .ok d ∧ d.cls = a.cls ∧
      exprSub s b = .ok r ∧ exprEq r (CmpArg.pyExpr a) = true := by
  obtain ⟨SA, XA, asm, hca⟩ := compatAdd_sameClass a b "+" h
  obtain ⟨SD, XD, asmd, hcd⟩ := compatAdd_sameClass a b "-" h
  have hadd : exprAdd a b = .ok (mkExpr a.cls (fadd a.node b.node) asm) := by
    rw [exprAdd_sameClass a b h, addCore_ok a b "+" fadd _ hca]
  have hsub : exprSub a b = .ok (mkExpr a.cls (fsub a.node b.node) asmd) := by
    rw [exprSub_sameClass a b h, addCore_ok a b "-" fsub _ hcd]
  obtain ⟨SR, XR, asmr, hcr⟩ :=
    compatAdd_sameClass (mkExpr a.cls (fadd a.node b.node) asm) b "-" h
  have hsub2 : exprSub (mkExpr a.cls (fadd a.node b.node) asm) b
      = .ok (mkExpr a.cls (fsub (fadd a.node b.node) b.node) asmr) := by
    rw [exprSub_sameClass (mkExpr a.cls (fadd a.node b.node) asm) b h,
      addCore_ok (mkExpr a.cls (fadd a.node b.node) asm) b "-" fsub _ hcr]
    simp only [mkExpr_cls, mkExpr_node]
  obtain ⟨SE, XE, asme, hce⟩ :=
    compatAdd_sameClass
      (mkExpr a.cls (fsub (fadd a.node b.node) b.node) asmr) a "==" rfl
  have heq : exprEq (mkExpr a.cls (fsub (fadd a.node b.node) b.node) asmr)
      (CmpArg.pyExpr a) = true := by
    unfold exprEq
    dsimp only
    rw [hce]
    exact semEqZero_add_sub_cancel a.node b.node
  exact ⟨_, _, _, hadd, rfl, hsub, rfl, hsub2, heq⟩

/-- C6 witness: two concrete time-domain voltages. -/
theorem spec_c6_add_sub_type_and_cancel_witness :
    ∃ s d r,
      exprAdd ⟨.TimeVoltageC, ⟨[1], [1]⟩, emptyAssum⟩
          ⟨.TimeVoltageC, ⟨[2], [1]⟩, emptyAssum⟩ = .ok s ∧
      s.cls = (⟨.TimeVoltageC, ⟨[1], [1]⟩, emptyAssum⟩ : LExpr).cls ∧
      exprSub ⟨.TimeVoltageC, ⟨[1], [1]⟩, emptyAssum⟩
          ⟨.TimeVoltageC, ⟨[2], [1]⟩, emptyAssum⟩ = .ok d ∧
      d.cls = (⟨.TimeVoltageC, ⟨[1], [1]⟩, emptyAssum⟩ : LExpr).cls ∧
      exprSub s ⟨.TimeVoltageC, ⟨[2], [1]⟩, emptyAssum⟩ = .ok r ∧
      exprEq r (CmpArg.pyExpr ⟨.TimeVoltageC, ⟨[1], [1]⟩, emptyAssum⟩) = true :=
  spec_c6_add_sub_type_and_cancel _ _ rfl

theorem is_causalA_settled (cls : PyClass) (node : Frac) (A : Assump)
    (h : A.causal.isSome = true) :
    is_causalA cls node A = (claimCausal A, A) := by
  unfold is_causalA claimCausal
  dsimp only
  rw [if_neg (Option.isSome_iff_ne_none.mp h)]

theorem is_dcA_settled (cls : PyClass) (node : Frac) (A : Assump)
    (h : A.dc.isSome = true) :
    is_dcA cls node A = (claimDc A, A) := by
  unfold is_dcA claimDc
  dsimp only
  rw [if_neg (Option.isSome_iff_ne_none.mp h)]

theorem is_acA_settled (cls : PyClass) (node : Frac) (A : Assump)
    (h : A.ac.isSome = true) :
    is_acA cls node A = (claimAc A, A) := by
  unfold is_acA claimAc
  dsimp only
  rw [if_neg (Option.isSome_iff_ne_none.mp h)]

theorem lapMulMergeA_settled (scls : PyClass) (snode : Frac) (xcls : PyClass)
    (xnode : Frac) (SA XA : Assump)
    (hS : settled SA = true) (hX : settled XA = true) :
    lapMulMergeA scls snode xcls xnode SA XA = (claimMergeMulA SA XA, SA, XA) := by
  obtain ⟨⟨hSc, hSd⟩, hSa⟩ :
      (SA.causal.isSome = true ∧ SA.dc.isSome = true) ∧ SA.ac.isSome = true := by
    simpa [settled, Bool.and_eq_true] using hS
  obtain ⟨⟨hXc, hXd⟩, hXa⟩ :
      (XA.causal.isSome = true ∧ XA.dc.isSome = true) ∧ XA.ac.isSome = true := by
    simpa [settled, Bool.and_eq_true] using hX
  simp only [lapMulMergeA,
    is_causalA_settled scls snode SA hSc, is_causalA_settled xcls xnode XA hXc,
    is_dcA_settled scls snode SA hSd, is_dcA_settled xcls xnode XA hXd,
    is_acA_settled scls snode SA hSa, is_acA_settled xcls xnode XA hXa,
    claimMergeMulA]
  cases hc1 : claimCausal SA <;> cases hc2 : claimCausal XA <;>
    cases hd1 : claimDc SA <;> cases hd2 : claimDc XA <;>
      cases ha1 : claimAc SA <;> cases ha2 : claimAc XA <;>
        simp [hc1, hc2, hd1, hd2, ha1, ha2,
          is_causalA_settled scls snode SA hSc,
          is_causalA_settled xcls xnode XA hXc,
          is_dcA_settled scls snode SA hSd, is_dcA_settled xcls xnode XA hXd,
          is_acA_settled scls snode SA hSa, is_acA_settled xcls xnode XA hXa]

theorem lap_class_facts (c : PyClass) (h : isSubclass c .LaplaceC = true) :
    isSubclass c .TimeC = false ∧ isSubclass c .AngularFourierC = false ∧
    isSubclass c .FourierC = false ∧ (decide (c = .ExprC) : Bool) = false ∧
    (decide (c = .ConstantC) : Bool) = false := by
  revert h
  cases c <;> decide

theorem compatMul_laplace (a b : LExpr) (op : String)
    (ha : isSubclass a.cls .LaplaceC = true)
    (hb : isSubclass b.cls .LaplaceC = true)
    (hsa : settled a.assum = true) (hsb : settled b.assum = true) :
    ∃ cls x2, compatMul a b op
        = .ok ⟨cls, a, x2, claimMergeMulA a.assum b.assum⟩ ∧
      x2.node = b.node ∧ isSubclass cls .TimeC = false := by
  obtain ⟨hat, haa, haf, hae, hac⟩ := lap_class_facts a.cls ha
  obtain ⟨hbt, hba, hbf, hbe, hbc⟩ := lap_class_facts b.cls hb
  unfold compatMul
  simp only [ha, hb, Bool.and_self, if_true,
    lapMulMergeA_settled a.cls a.node b.cls b.node a.assum b.assum hsa hsb,
    hat, haa, haf, hae, hac, hbt, hba, hbf, hbe, hbc,
    Bool.false_and, Bool.and_false, Bool.false_or, Bool.or_false, if_false]
  repeat' split
  all_goals first
  | exact ⟨_, _, rfl, rfl, hat⟩
  | exact ⟨_, _, rfl, rfl, hbt⟩

theorem mkExpr_assum_of_not_time (cls : PyClass) (N : Frac) (M : Assump)
    (hct : isSubclass cls .TimeC = false) :
    (mkExpr cls N M).assum
      = if fzero N = true then forceCausal M else M := by
  unfold mkExpr initAssum forceCausal
  rw [hct]
  simp

/-- C1 (amended): for Laplace-domain operands whose assumption dicts
already carry the three lazily inferred keys (the settled state any
queried expression is in), the assumptions of `a * b`, `a / b` and
`a ** b` follow the claimed merge rule — causal if either operand is
causal, else a's assumptions when both are dc or both ac, else promotion
to ac=True for a dc/ac mixture, else no assumptions — except that a
result node which is literally zero additionally has causal=True forced
by the constructor.  (Operands missing those keys first have them
clobbered to unset by lazy inference, which can erase a bare dc or ac
marking: see the counterexample.) -/
theorem spec_c1_laplace_mul_assumption_merge (a b : LExpr)
    (ha : isSubclass a.cls .LaplaceC = true)
    (hb : isSubclass b.cls .LaplaceC = true)
    (hsa : settled a.assum = true) (hsb : settled b.assum = true) :
    (exprMul a b).map LExpr.assum
      = .ok (if fzero (fmul a.node b.node) = true
             then forceCausal (claimMergeMulA a.assum b.assum)
             else claimMergeMulA a.assum b.assum) ∧
    (exprDiv a b).map LExpr.assum
      = .ok (if fzero (fdiv a.node b.node) = true
             then forceCausal (claimMergeMulA a.assum b.assum)
             else claimMergeMulA a.assum b.assum) ∧
    (exprPow a b).map LExpr.assum
      = .ok (if fzero (fpow a.node b.node) = true
             then forceCausal (claimMergeMulA a.assum b.assum)
             else claimMergeMulA a.assum b.assum) := by
  obtain ⟨clsm, x2m, hcm, hxm, hctm⟩ := compatMul_laplace a b "*" ha hb hsa hsb
  obtain ⟨clsd, x2d, hcd, hxd, hctd⟩ := compatMul_laplace a b "/" ha hb hsa hsb
  obtain ⟨clsp, x2p, hcp, hxp, hctp⟩ := compatMul_laplace a b "**" ha hb hsa hsb
  refine ⟨?_, ?_, ?_⟩
  · simp [exprMul, hcm, Except.map, mkExpr_assum_of_not_time _ _ _ hctm, hxm]
  · simp [exprDiv, hcd, Except.map, mkExpr_assum_of_not_time _ _ _ hctd, hxd]
  · simp [exprPow, hcp, Except.map, mkExpr_assum_of_not_time _ _ _ hctp, hxp]

/-- C1 witness: a causal Laplace operand times, over, and to the power of
a settled non-causal one carries exactly causal=True. -/
theorem spec_c1_laplace_mul_assumption_merge_witness :
    (exprMul ⟨.LaplaceC, fconst 1,
        ⟨some (some true), some (some false), some (some false), none⟩⟩
      ⟨.LaplaceC, fconst 2,
        ⟨some (some false), some (some false), some (some false), none⟩⟩).map
        LExpr.assum = .ok causalTrueAssum ∧
    (exprDiv ⟨.LaplaceC, fconst 1,
        ⟨some (some true), some (some false), some (some false), none⟩⟩
      ⟨.LaplaceC, fconst 2,
        ⟨some (some false), some (some false), some (some false), none⟩⟩).map
        LExpr.assum = .ok causalTrueAssum ∧
    (exprPow ⟨.LaplaceC, fconst 1,
        ⟨some (some true), some (some false), some (some false), none⟩⟩
      ⟨.LaplaceC, fconst 2,
        ⟨some (some false), some (some false), some (some false), none⟩⟩).map
        LExpr.assum = .ok causalTrueAssum := by
  have h := spec_c1_laplace_mul_assumption_merge
    ⟨.LaplaceC, fconst 1,
      ⟨some (some true), some (some false), some (some false), none⟩⟩
    ⟨.LaplaceC, fconst 2,
      ⟨some (some false), some (some false), some (some false), none⟩⟩
    (by decide) (by decide) (by decide) (by decide)
  exact ⟨h.1.trans (by rfl), h.2.1.trans (by rfl), h.2.2.trans (by rfl)⟩

/-- C1 counterexample: two Laplace operands constructed with dc=True (and
no causal key), as `LaplaceDomainExpression(expr, dc=True)` produces,
both answer True to `is_dc`; yet their product carries no assumptions at
all — the `is_causal` query inside the merge clobbers the dc entry to
unset — contradicting the claim that the result carries a's (dc)
assumptions whenever both operands are dc and neither is causal. -/
theorem spec_c1_mul_drops_dc_counterexample :
    (is_dc ⟨.LaplaceC, fconst 2, ⟨none, some (some true), none, none⟩⟩).1 = true ∧
    (is_dc ⟨.LaplaceC, fconst 3, ⟨none, some (some true), none, none⟩⟩).1 = true ∧
    (is_causal ⟨.LaplaceC, fconst 2, ⟨none, some (some true), none, none⟩⟩).1
      = false ∧
    (is_causal ⟨.LaplaceC, fconst 3, ⟨none, some (some true), none, none⟩⟩).1
      = false ∧
    (exprMul ⟨.LaplaceC, fconst 2, ⟨none, some (some true), none, none⟩⟩
        ⟨.LaplaceC, fconst 3, ⟨none, some (some true), none, none⟩⟩).map
        LExpr.assum = .ok emptyAssum ∧
    emptyAssum ≠ (⟨none, some (some true), none, none⟩ : Assump) := by
  exact ⟨by decide, by decide, by decide, by decide, rfl, by decide⟩

/-- C10 witness: concrete voltage and current operands. -/
theorem spec_c10_eq_ne_asymmetry_witness :
    exprEq ⟨.TimeVoltageC, fconst 1, emptyAssum⟩
        (CmpArg.pyExpr ⟨.TimeCurrentC, fconst 1, emptyAssum⟩) = false ∧
    exprNe ⟨.TimeVoltageC, fconst 1, emptyAssum⟩
        (CmpArg.pyExpr ⟨.TimeCurrentC, fconst 1, emptyAssum⟩)
      = .error (incompatibleMsg .TimeVoltageC .TimeCurrentC "!=") :=
  spec_c10_eq_ne_asymmetry _ _ rfl rfl

end LcapySpec
